import Mathlib

/-!
# Admin-UI: the table state machine

A shallow embedding of the client-side state of the admin table
(`TableView.js`, `UserList.js`, `Pagination.js`, `SearchBar.js`) and theorems
about search, pagination, selection, editing and deletion.

React state is modelled by explicit state passing: one record holds the state
variables of `Table` (`data`, `edit`, `searchTerm`, `searchData`,
`currentPage`) and of `TableData` (`selectedRows`); every event handler is a
function from state to state, with the effects it triggers run to completion.
-/

namespace AdminUI

/-! ## Data model -/

/-- A user record as held in `data`. The `selected` property is absent on the
records fetched at startup (`none`) and is written by the two selection
handlers of `Table`. -/
structure User where
  id : Nat
  name : String
  email : String
  role : String
  selected : Option Bool
  deriving DecidableEq, Repr

/-- Number of users to display per page (`usersPerPage` in `Table`). -/
def usersPerPage : Nat := 10

/-- The state variables of `Table` together with `selectedRows`, the one
state variable of `TableData`. -/
structure AppState where
  data : List User
  edit : Option Nat
  searchTerm : String
  searchData : List User
  currentPage : Nat
  selectedRows : List Nat
  deriving DecidableEq, Repr

/-- The state of a freshly mounted `Table`. -/
def initialState : AppState :=
  { data := [], edit := none, searchTerm := "", searchData := [],
    currentPage := 1, selectedRows := [] }

/-! ## The pattern fragment of `new RegExp(searchTerm, "i")`

`performSearch` hands the search term to the platform's regular-expression
constructor. The patterns that are a sequence of pattern characters and `.`
wildcards (the fragment) are embedded concretely. On every other source the
constructor is the platform's, taken as a parameter `engine`: it either
throws a `SyntaxError` or yields a pattern, of which the embedding keeps what
`String.prototype.search` computes with it. The platform's case folding
(`Canonicalize` under the `i` flag) is a parameter `canon` of every
definition that matches text of the fragment. -/

/-- The platform's `new RegExp(source, "i")` on the sources outside the
fragment: `none` when the constructor throws a `SyntaxError`, otherwise the
function that sends a subject to `subject.search(pattern)`. -/
abbrev Engine : Type := String → Option (String → Int)

/-- One term of a pattern of the fragment. -/
inductive Atom where
  | char (c : Char)
  | any
  deriving DecidableEq, Repr

/-- The syntax characters of a pattern: `^ $ \ . * + ? ( ) [ ] { } |`. -/
def syntaxCharacters : List Char :=
  [Char.ofNat 94, Char.ofNat 36, Char.ofNat 92, Char.ofNat 46, Char.ofNat 42,
   Char.ofNat 43, Char.ofNat 63, Char.ofNat 40, Char.ofNat 41, Char.ofNat 91,
   Char.ofNat 93, Char.ofNat 123, Char.ofNat 125, Char.ofNat 124]

/-- The line terminators, which `.` does not match. -/
def lineTerminators : List Char :=
  [Char.ofNat 10, Char.ofNat 13, Char.ofNat 8232, Char.ofNat 8233]

/-- Reads one character of the pattern source. -/
def parseAtom (c : Char) : Option Atom :=
  if c = Char.ofNat 46 then some Atom.any
  else if c ∈ syntaxCharacters then none
  else some (Atom.char c)

/-- Reads a whole pattern source, one atom per character. -/
def parsePattern : List Char → Option (List Atom)
  | [] => some []
  | c :: cs =>
    match parseAtom c, parsePattern cs with
    | some a, some as => some (a :: as)
    | _, _ => none

/-- A compiled pattern: a pattern of the fragment, or a pattern the platform
has built from a source outside the fragment. -/
inductive Pattern where
  | atoms (as : List Atom)
  | compiled (searchIn : String → Int)

/-- The constructor `new RegExp(source, "i")`; `none` stands for a thrown
`SyntaxError`, which no source of the fragment causes. -/
def RegExp (engine : Engine) (source : String) : Option Pattern :=
  match parsePattern source.toList with
  | some as => some (Pattern.atoms as)
  | none =>
    match engine source with
    | some searchIn => some (Pattern.compiled searchIn)
    | none => none

/-- Whether one atom matches one character of the subject. A pattern
character matches the characters with the same case folding; `.` matches
every character but the line terminators (no other character folds to a
line terminator). -/
def atomMatches (canon : Char → Char) : Atom → Char → Bool
  | Atom.char c, x => decide (canon x = canon c)
  | Atom.any, x => decide (x ∉ lineTerminators)

/-- Whether the pattern matches a prefix of the subject. -/
def matchHere (canon : Char → Char) : List Atom → List Char → Bool
  | [], _ => true
  | _ :: _, [] => false
  | a :: as, x :: xs => atomMatches canon a x && matchHere canon as xs

/-- The index of the first match at or after position `i`, the subject from
`i` on being `s`; `-1` when there is none. -/
def searchFrom (canon : Char → Char) (pattern : List Atom) : List Char → Nat → Int
  | [], i => if matchHere canon pattern [] then (i : Int) else -1
  | x :: xs, i =>
    if matchHere canon pattern (x :: xs) then (i : Int)
    else searchFrom canon pattern xs (i + 1)

/-- The method `String.prototype.search`. -/
def search (canon : Char → Char) (subject : String) : Pattern → Int
  | Pattern.atoms as => searchFrom canon as subject.toList 0
  | Pattern.compiled searchIn => searchIn subject

/-! ## `Table` -/

/-- The value `performSearch` passes to `setSearchData`; `none` when the
constructor throws and `performSearch` with it. -/
def performSearch (engine : Engine) (canon : Char → Char) (data : List User)
    (searchTerm : String) : Option (List User) :=
  if searchTerm.length = 0 then some []
  else
    match RegExp engine searchTerm with
    | none => none
    | some searchPattern =>
      some (data.filter fun user =>
        search canon user.name searchPattern != -1 ||
        search canon user.email searchPattern != -1 ||
        search canon user.role searchPattern != -1)

/-- The method `Array.prototype.findIndex`, counting from position `i`;
`none` stands for the result `-1`. -/
def findIndexFrom (p : User → Bool) : List User → Nat → Option Nat
  | [], _ => none
  | user :: rest, i => if p user then some i else findIndexFrom p rest (i + 1)

/-- The method `Array.prototype.findIndex`. -/
def findIndex (data : List User) (p : User → Bool) : Option Nat :=
  findIndexFrom p data 0

/-- The handler `saveContent`: the new `data` and `edit`. -/
def saveContent (s : AppState) (id : Nat) (updatedName updatedEmail updatedRole : String) :
    AppState :=
  match findIndex s.data (fun user => user.id == id) with
  | none => s
  | some userIndex =>
    match s.data.get? userIndex with
    | none => s
    | some found =>
      let updatedUser : User :=
        { found with name := updatedName, email := updatedEmail, role := updatedRole }
      let newData := s.data.set userIndex updatedUser
      { s with data := newData, edit := none }

/-- The handler `deleteData` of `Table`. -/
def deleteData (s : AppState) (id : Nat) : AppState :=
  let newData := s.data.filter fun data => data.id != id
  { s with data := newData }

/-- The handler `handleSelectAll` of `Table`. -/
def Table.handleSelectAll (s : AppState) (checked : Bool) : AppState :=
  let updatedData := s.data.map fun item => { item with selected := some checked }
  { s with data := updatedData }

/-- The handler `handleCheckboxChange` of `Table`. -/
def Table.handleCheckboxChange (s : AppState) (id : Nat) (checked : Bool) : AppState :=
  let updatedData := s.data.map fun item =>
    if item.id = id then { item with selected := some checked } else item
  { s with data := updatedData }

/-- The handler `deleteSelectedCheckBox` of `Table`. -/
def deleteSelectedCheckBox (s : AppState) (selectedIds : List Nat) : AppState :=
  let updatedData := s.data.filter fun item => !selectedIds.contains item.id
  { s with data := updatedData }

/-- The handler `paginate` of `Table`. -/
def paginate (s : AppState) (pageNumber : Nat) : AppState :=
  { s with currentPage := pageNumber }

/-- The setter `setEdit`, which the edit button calls with the row's id. -/
def setEdit (s : AppState) (target : Option Nat) : AppState :=
  { s with edit := target }

/-- The method `Array.prototype.slice(start, end)`: a negative index counts
from the end of the array, and both indices are clamped to the array. -/
def slice {α : Type} (xs : List α) (start stop : Int) : List α :=
  let len : Int := xs.length
  let k : Int := if start < 0 then max (len + start) 0 else min start len
  let final : Int := if stop < 0 then max (len + stop) 0 else min stop len
  (xs.drop k.toNat).take (final - k).toNat

/-- The constant `indexOfLastUser` of a render. -/
def indexOfLastUser (s : AppState) : Int :=
  (s.currentPage : Int) * (usersPerPage : Int)

/-- The constant `indexOfFirstUser` of a render. -/
def indexOfFirstUser (s : AppState) : Int :=
  indexOfLastUser s - (usersPerPage : Int)

/-- The constant `currentUsers` of a render. -/
def currentUsers (s : AppState) : List User :=
  if s.searchTerm.length = 0 then slice s.data (indexOfFirstUser s) (indexOfLastUser s)
  else slice s.searchData (indexOfFirstUser s) (indexOfLastUser s)

/-- The `data` prop `Table` hands to `UserList`. -/
def userListData (s : AppState) : List User :=
  if s.searchTerm.length = 0 then currentUsers s else s.searchData

/-- The records that govern pagination: what `currentUsers` slices and what
the `totalUsers` prop of `Pagination` counts. -/
def activeSet (s : AppState) : List User :=
  if s.searchTerm.length = 0 then s.data else s.searchData

/-- The `totalUsers` prop `Table` hands to `Pagination`. -/
def totalUsers (s : AppState) : Nat :=
  if s.searchTerm.length = 0 then s.data.length else s.searchData.length

/-- The handler `setData(response.data)` of the startup fetch. -/
def getData (s : AppState) (response : List User) : AppState :=
  { s with data := response }

/-- The handler `handleSearchChange` of `Search` followed by the effect of
`Table` that depends on `searchTerm`: the effect calls `performSearch` only
when the term has changed. The result is `none` when `performSearch` throws:
the exception leaves the effect and the table is unmounted. -/
def handleSearchChange (engine : Engine) (canon : Char → Char) (s : AppState)
    (value : String) : Option AppState :=
  if value = s.searchTerm then some s
  else
    match performSearch engine canon s.data value with
    | none => none
    | some filteredData => some { s with searchTerm := value, searchData := filteredData }

/-! ## `Pagination` -/

/-- The constant `totalPages` of `CustomPagination`:
`Math.ceil(totalUsers / usersPerPage)`. -/
def totalPages (usersPerPage totalUsers : Nat) : Nat :=
  Nat.ceil ((totalUsers : ℚ) / (usersPerPage : ℚ))

/-! ## `TableData` (`UserList.js`) -/

/-- The handler `handleSelectAll` of `TableData`; `props.data` is
`userListData` of the render the event comes from. -/
def handleSelectAll (s : AppState) (checked : Bool) : AppState :=
  let selectedRows := if checked then (userListData s).map (fun details => details.id) else []
  Table.handleSelectAll (setEdit { s with selectedRows := selectedRows } none) checked

/-- The handler `handleCheckboxChange` of `TableData`. -/
def handleCheckboxChange (s : AppState) (id : Nat) (checked : Bool) : AppState :=
  let updatedSelectedRows :=
    if checked then s.selectedRows ++ [id] else s.selectedRows.filter fun rowId => rowId != id
  Table.handleCheckboxChange (setEdit { s with selectedRows := updatedSelectedRows } none)
    id checked

/-- The handler `handleDelete` of `TableData`. -/
def handleDelete (s : AppState) : AppState :=
  deleteSelectedCheckBox s s.selectedRows

/-! ## Traces of user actions -/

/-- The events the table reacts to. -/
inductive Action where
  | fetched (response : List User)
  | typed (value : String)
  | editClicked (id : Nat)
  | saveClicked (id : Nat) (name email role : String)
  | deleteClicked (id : Nat)
  | selectAllChanged (checked : Bool)
  | checkboxChanged (id : Nat) (checked : Bool)
  | deleteSelectedClicked
  | pageChanged (pageNumber : Nat)
  deriving Repr

/-- The state after one event; `none` when the event ends in an uncaught
exception. -/
def step (engine : Engine) (canon : Char → Char) (s : AppState) : Action → Option AppState
  | Action.fetched response => some (getData s response)
  | Action.typed value => handleSearchChange engine canon s value
  | Action.editClicked id => some (setEdit s (some id))
  | Action.saveClicked id name email role => some (saveContent s id name email role)
  | Action.deleteClicked id => some (deleteData s id)
  | Action.selectAllChanged checked => some (handleSelectAll s checked)
  | Action.checkboxChanged id checked => some (handleCheckboxChange s id checked)
  | Action.deleteSelectedClicked => some (handleDelete s)
  | Action.pageChanged pageNumber => some (paginate s pageNumber)

/-- The state after a sequence of events. -/
def run (engine : Engine) (canon : Char → Char) (s : AppState) :
    List Action → Option AppState
  | [] => some s
  | a :: rest =>
    match step engine canon s a with
    | none => none
    | some t => run engine canon t rest

/-! ## The properties the specification names -/

/-- Case-insensitive substring containment, in the words of the
specification: after case folding, the query is a contiguous part of the
subject. -/
def containsIgnoreCase (canon : Char → Char) (query subject : String) : Prop :=
  (query.toList.map canon) <:+: (subject.toList.map canon)

instance containsIgnoreCase.decidable (canon : Char → Char) (query subject : String) :
    Decidable (containsIgnoreCase canon query subject) := by
  unfold containsIgnoreCase
  infer_instance

/-- The slice of the specification: the positions
`[(pageIndex - 1) * pageSize, pageIndex * pageSize)` of the active set,
clipped to its bounds. -/
def visibleSlice (activeSet : List User) (pageIndex pageSize : Nat) : List User :=
  (activeSet.drop ((pageIndex - 1) * pageSize)).take pageSize

/-! ## Sample data -/

/-- An engine that accepts no source outside the fragment. The sample traces
below type sources of the fragment only, and on those no engine is
consulted. -/
def fragmentOnly : Engine := fun _ => none

/-- The first record of the specification's two-record scenario. -/
def alice : User :=
  { id := 1, name := "Alice", email := "a@x.com", role := "admin", selected := none }

/-- The second record of the specification's two-record scenario. -/
def bob : User :=
  { id := 2, name := "Bob", email := "b@x.com", role := "member", selected := none }

/-- A record none of whose fields contains a full stop. -/
def carol : User :=
  { id := 3, name := "Carol", email := "carol@localhost", role := "member", selected := none }

/-- A store of `n` members with the ids `1, ..., n`. -/
def members (n : Nat) : List User :=
  (List.range n).map fun i =>
    { id := i + 1, name := "user", email := "user@x.com", role := "member", selected := none }

/-- The specification's clamping scenario: 25 records; the rows 11 to 20 are
checked on page 2 and the rows 21 to 25 on page 3. -/
def fifteenChecked : List Action :=
  [Action.fetched (members 25), Action.pageChanged 2] ++
  (List.range 10).map (fun i => Action.checkboxChanged (i + 11) true) ++
  [Action.pageChanged 3] ++
  (List.range 5).map (fun i => Action.checkboxChanged (i + 21) true)

/-! ## Lemmas on the pattern fragment -/

/-- A source without syntax characters is read as the sequence of its
characters. -/
theorem parsePattern_literal (cs : List Char) (h : ∀ c ∈ cs, c ∉ syntaxCharacters) :
    parsePattern cs = some (cs.map Atom.char) := by
  induction cs with
  | nil => rfl
  | cons c t ih =>
    have hc : c ∉ syntaxCharacters := h c (by simp)
    have hdot : c ≠ Char.ofNat 46 := by
      intro hEq
      apply hc
      rw [hEq]
      decide
    have ht := ih (fun d hd => h d (by simp [hd]))
    simp [parsePattern, parseAtom, hdot, hc, ht]

/-- On a source of the fragment the constructor does not throw and its result
does not depend on the engine. -/
theorem RegExp_of_fragment (engine : Engine) (source : String) (as : List Atom)
    (h : parsePattern source.toList = some as) :
    RegExp engine source = some (Pattern.atoms as) := by
  simp only [RegExp, h]

/-- A literal pattern matches at the head of a subject exactly when, after
case folding, it is a prefix of it. -/
theorem matchHere_literal (canon : Char → Char) (cs xs : List Char) :
    matchHere canon (cs.map Atom.char) xs = true ↔ (cs.map canon) <+: (xs.map canon) := by
  induction cs generalizing xs with
  | nil => simp [matchHere]
  | cons c t ih =>
    cases xs with
    | nil => simp [matchHere]
    | cons x xs =>
      simp only [List.map_cons, matchHere, atomMatches, Bool.and_eq_true, decide_eq_true_eq, ih,
        List.cons_prefix_cons]
      constructor
      · rintro ⟨h1, h2⟩; exact ⟨h1.symm, h2⟩
      · rintro ⟨h1, h2⟩; exact ⟨h1.symm, h2⟩

/-- The search finds a match exactly when the pattern matches at the head of
some suffix of the subject. -/
theorem searchFrom_ne_neg_one (canon : Char → Char) (pattern : List Atom) (xs : List Char)
    (i : Nat) :
    searchFrom canon pattern xs i ≠ -1 ↔ ∃ t, t <:+ xs ∧ matchHere canon pattern t = true := by
  induction xs generalizing i with
  | nil =>
    by_cases h : matchHere canon pattern [] = true
    · simp only [searchFrom, h, if_true]
      constructor
      · intro _; exact ⟨[], List.suffix_refl _, h⟩
      · intro _; omega
    · simp only [searchFrom, h]
      simp only [Bool.false_eq_true, if_false, ne_eq, not_true_eq_false, false_iff]
      rintro ⟨t, ht, hm⟩
      have : t = [] := List.suffix_nil.mp ht
      subst this
      exact h hm
  | cons x xs ih =>
    by_cases h : matchHere canon pattern (x :: xs) = true
    · simp only [searchFrom, h, if_true]
      constructor
      · intro _; exact ⟨x :: xs, List.suffix_refl _, h⟩
      · intro _; omega
    · simp only [searchFrom, h]
      simp only [Bool.false_eq_true, if_false]
      rw [ih]
      constructor
      · rintro ⟨t, ht, hm⟩
        exact ⟨t, ht.trans (List.suffix_cons x xs), hm⟩
      · rintro ⟨t, ht, hm⟩
        rcases List.suffix_cons_iff.mp ht with heq | hsuf
        · subst heq; exact absurd hm h
        · exact ⟨t, hsuf, hm⟩

/-- On a literal pattern, `search` differs from `-1` exactly when the subject
contains the query, compared case-insensitively. -/
theorem search_literal (canon : Char → Char) (query subject : String) :
    search canon subject (Pattern.atoms (query.toList.map Atom.char)) ≠ -1 ↔
      containsIgnoreCase canon query subject := by
  unfold search containsIgnoreCase
  rw [searchFrom_ne_neg_one, List.infix_iff_prefix_suffix]
  constructor
  · rintro ⟨t, ht, hm⟩
    exact ⟨t.map canon, (matchHere_literal canon _ _).mp hm, ht.map canon⟩
  · rintro ⟨t, hp, hs⟩
    obtain ⟨r, hr⟩ := hs
    obtain ⟨a, b, hab, ha, hb⟩ := List.map_eq_append_iff.mp hr.symm
    refine ⟨b, ⟨a, hab.symm⟩, ?_⟩
    rw [matchHere_literal, hb]
    exact hp

/-! ## Search (C4) -/

/-- Only the empty string has length 0. -/
theorem length_eq_zero_iff (q : String) : q.length = 0 ↔ q = "" := by
  constructor
  · intro h
    have h2 : q.data = [] := List.length_eq_zero.mp h
    exact String.ext h2
  · intro h; subst h; rfl

/-- On a non-empty query without syntax characters `performSearch` goes
through, with the literal pattern. -/
theorem performSearch_literal_eq (engine : Engine) (canon : Char → Char) (data : List User)
    (query : String) (hne : query ≠ "") (hlit : ∀ c ∈ query.toList, c ∉ syntaxCharacters) :
    performSearch engine canon data query = some (data.filter fun user =>
      search canon user.name (Pattern.atoms (query.toList.map Atom.char)) != -1 ||
      search canon user.email (Pattern.atoms (query.toList.map Atom.char)) != -1 ||
      search canon user.role (Pattern.atoms (query.toList.map Atom.char)) != -1) := by
  have hlen : ¬ query.length = 0 := fun h => hne ((length_eq_zero_iff query).mp h)
  have hre : RegExp engine query = some (Pattern.atoms (query.toList.map Atom.char)) := by
    simp only [RegExp, parsePattern_literal _ hlit]
  simp only [performSearch, hlen, if_false, hre]

/-- Claim C4 (counterexample). The query `.` is not empty and keeps Carol in the
search result, although none of her name, email and role contains a full
stop. -/
theorem performSearch_wildcard_keeps_carol :
    "." ≠ "" ∧
    performSearch fragmentOnly Char.toUpper [carol] "." = some [carol] ∧
    ¬ (containsIgnoreCase Char.toUpper "." carol.name ∨
        containsIgnoreCase Char.toUpper "." carol.email ∨
        containsIgnoreCase Char.toUpper "." carol.role) := by
  decide

/-- Claim C4 (amended). For a non-empty query without syntax characters,
`performSearch` returns exactly the records of `data` whose name, email or
role contains the query as a substring, compared case-insensitively. -/
theorem performSearch_literal_query (engine : Engine) (canon : Char → Char)
    (data : List User) (query : String)
    (hne : query ≠ "") (hlit : ∀ c ∈ query.toList, c ∉ syntaxCharacters) :
    ∃ users, performSearch engine canon data query = some users ∧
      ∀ u, u ∈ users ↔ u ∈ data ∧
        (containsIgnoreCase canon query u.name ∨ containsIgnoreCase canon query u.email ∨
          containsIgnoreCase canon query u.role) := by
  refine ⟨_, performSearch_literal_eq engine canon data query hne hlit, ?_⟩
  intro u
  simp only [List.mem_filter, Bool.or_eq_true, bne_iff_ne, search_literal]
  tauto

/-- The amended C4 statement on the two-record store and the query `BOB`. -/
theorem performSearch_literal_query_witness :
    ∃ users, performSearch fragmentOnly Char.toUpper [alice, bob] "BOB" = some users ∧
      ∀ u, u ∈ users ↔ u ∈ [alice, bob] ∧
        (containsIgnoreCase Char.toUpper "BOB" u.name ∨
          containsIgnoreCase Char.toUpper "BOB" u.email ∨
          containsIgnoreCase Char.toUpper "BOB" u.role) :=
  performSearch_literal_query fragmentOnly Char.toUpper [alice, bob] "BOB" (by decide)
    (by decide)

/-! ## Page count (C3) -/

/-- The page count is the ceiling of `N / 10`. -/
theorem totalPages_le_iff (N k : Nat) : totalPages 10 N ≤ k ↔ N ≤ 10 * k := by
  unfold totalPages
  rw [Nat.ceil_le, div_le_iff₀ (by norm_num : (0 : ℚ) < ((10 : ℕ) : ℚ))]
  constructor
  · intro h
    have h2 : ((N : ℕ) : ℚ) ≤ ((k * 10 : ℕ) : ℚ) := by push_cast; exact h
    have h3 : N ≤ k * 10 := by exact_mod_cast h2
    omega
  · intro h
    have h3 : N ≤ k * 10 := by omega
    have h2 : ((N : ℕ) : ℚ) ≤ ((k * 10 : ℕ) : ℚ) := by exact_mod_cast h3
    push_cast at h2
    exact h2

/-- The page count in integer arithmetic. -/
theorem totalPages_eq (N : Nat) : totalPages 10 N = (N + 9) / 10 := by
  apply le_antisymm
  · rw [totalPages_le_iff]; omega
  · have h := (totalPages_le_iff N (totalPages 10 N)).mp le_rfl
    omega

/-- Claim C3 (counterexample). With no users the page count is 0, not
`max(1, ceil(0 / 10)) = 1`. -/
theorem totalPages_zero_users :
    totalPages 10 0 = 0 ∧ totalPages 10 0 ≠ max 1 (Nat.ceil (((0 : ℕ) : ℚ) / ((10 : ℕ) : ℚ))) := by
  have h : totalPages 10 0 = 0 := by rw [totalPages_eq]
  refine ⟨h, ?_⟩
  rw [h]
  intro hmax
  have h1 : 1 ≤ max 1 (Nat.ceil (((0 : ℕ) : ℚ) / ((10 : ℕ) : ℚ))) := le_max_left _ _
  omega

/-- Claim C3 (amended). The page count for `N` users is the ceiling of `N / 10`:
the least `k` with `N ≤ 10 * k`. It equals `max(1, ceil(N / 10))` as soon as
there is a user, and it is 0 when there is none. -/
theorem totalPages_is_ceiling (N : Nat) :
    (∀ k, totalPages 10 N ≤ k ↔ N ≤ 10 * k) ∧
    (0 < N → totalPages 10 N = max 1 ((N + 9) / 10)) ∧
    (N = 0 → totalPages 10 N = 0) := by
  refine ⟨fun k => totalPages_le_iff N k, ?_, ?_⟩
  · intro h
    rw [totalPages_eq]
    have : 1 ≤ (N + 9) / 10 := by omega
    omega
  · intro h
    rw [totalPages_eq, h]

/-- The amended C3 statement for 25 users. -/
theorem totalPages_is_ceiling_witness :
    0 < 25 ∧ totalPages 10 25 = max 1 ((25 + 9) / 10) :=
  ⟨by decide, (totalPages_is_ceiling 25).2.1 (by decide)⟩

/-! ## The visible slice -/

/-- From page 1 on, the slice taken by a render is a drop followed by a take.
-/
theorem slice_page {α : Type} (xs : List α) (p : Nat) (hp : 1 ≤ p) :
    slice xs ((p : Int) * (10 : Int) - (10 : Int)) ((p : Int) * (10 : Int)) =
      (xs.drop ((p - 1) * 10)).take 10 := by
  unfold slice
  have h1 : ¬ ((p : Int) * 10 - 10 < 0) := by omega
  have h2 : ¬ ((p : Int) * 10 < 0) := by omega
  simp only [h1, h2, if_false]
  by_cases hlen : (p - 1) * 10 ≤ xs.length
  · have hk : (min ((p : Int) * 10 - 10) (xs.length : Int)).toNat = (p - 1) * 10 := by omega
    rw [hk]
    by_cases hlen2 : p * 10 ≤ xs.length
    · have hf : (min ((p : Int) * 10) (xs.length : Int) -
          min ((p : Int) * 10 - 10) (xs.length : Int)).toNat = 10 := by omega
      rw [hf]
    · have hf : (min ((p : Int) * 10) (xs.length : Int) -
          min ((p : Int) * 10 - 10) (xs.length : Int)).toNat = xs.length - (p - 1) * 10 := by
        omega
      rw [hf]
      rw [List.take_of_length_le (by simp), List.take_of_length_le (by simp; omega)]
  · have hk : (min ((p : Int) * 10 - 10) (xs.length : Int)).toNat = xs.length := by omega
    rw [hk]
    rw [List.drop_of_length_le (le_refl _), List.drop_of_length_le (by omega)]
    simp

/-- With no query and a page index of at least 1, `UserList` is handed the
visible slice of the active set. -/
theorem userListData_eq_visibleSlice (s : AppState) (hq : s.searchTerm = "")
    (hp : 1 ≤ s.currentPage) :
    userListData s = visibleSlice (activeSet s) s.currentPage 10 := by
  have hlen : s.searchTerm.length = 0 := by rw [hq]; rfl
  simp only [userListData, currentUsers, activeSet, hlen, if_true, visibleSlice,
    indexOfFirstUser, indexOfLastUser, usersPerPage]
  exact slice_page s.data s.currentPage hp

/-- With no query, a page beyond the page count shows no row. -/
theorem userListData_eq_nil (s : AppState) (hq : s.searchTerm = "")
    (hp : totalPages 10 s.data.length < s.currentPage) : userListData s = [] := by
  rw [totalPages_eq] at hp
  rw [userListData_eq_visibleSlice s hq (by omega)]
  have hlen : s.searchTerm.length = 0 := by rw [hq]; rfl
  simp only [visibleSlice, activeSet, hlen, if_true]
  rw [List.drop_of_length_le (by omega)]
  rfl

/-! ## Saving an edit (C9) -/

/-- The result `-1` of `findIndex` means that no record satisfies the test. -/
theorem findIndexFrom_none (p : User → Bool) (l : List User) (i : Nat) :
    findIndexFrom p l i = none ↔ ∀ u ∈ l, p u = false := by
  induction l generalizing i with
  | nil => simp [findIndexFrom]
  | cons a t ih =>
    by_cases h : p a = true
    · simp [findIndexFrom, h]
    · simp [findIndexFrom, h, ih]

/-- An index returned by `findIndex` is the position of the first record that
satisfies the test. -/
theorem findIndexFrom_some (p : User → Bool) (l : List User) (i k : Nat)
    (h : findIndexFrom p l i = some k) :
    ∃ j found, k = i + j ∧ l[j]? = some found ∧ p found = true ∧
      ∀ j', j' < j → ∀ v, l[j']? = some v → p v = false := by
  induction l generalizing i with
  | nil => simp [findIndexFrom] at h
  | cons a t ih =>
    by_cases hp : p a = true
    · simp only [findIndexFrom, hp, if_true, Option.some.injEq] at h
      exact ⟨0, a, by omega, by simp, hp, by intro j' hj'; omega⟩
    · simp only [findIndexFrom, hp] at h
      obtain ⟨j, found, hk, hget, hfound, hbefore⟩ := ih (i + 1) h
      refine ⟨j + 1, found, by omega, by simpa using hget, hfound, ?_⟩
      intro j' hj' v hv
      cases j' with
      | zero =>
        simp at hv
        subst hv
        simpa using hp
      | succ m =>
        exact hbefore m (by omega) v (by simpa using hv)

/-- Claim C9. `saveContent` leaves `data` as it is when no record has the id;
otherwise it rewrites the first record with that id in place: the length and
the order are kept, that record gets the three new fields and keeps its `id`
and `selected`, and every other position is unchanged. -/
theorem saveContent_updates_one_record (s : AppState) (id : Nat)
    (updatedName updatedEmail updatedRole : String) :
    ((∀ u ∈ s.data, u.id ≠ id) →
      (saveContent s id updatedName updatedEmail updatedRole).data = s.data) ∧
    ((∃ u ∈ s.data, u.id = id) →
      ∃ (i : Nat) (found : User), s.data[i]? = some found ∧ found.id = id ∧
        (∀ j, j < i → ∀ v : User, s.data[j]? = some v → v.id ≠ id) ∧
        (saveContent s id updatedName updatedEmail updatedRole).data.length = s.data.length ∧
        (saveContent s id updatedName updatedEmail updatedRole).data[i]? =
          some { id := found.id, name := updatedName, email := updatedEmail,
                 role := updatedRole, selected := found.selected } ∧
        ∀ j, j ≠ i →
          (saveContent s id updatedName updatedEmail updatedRole).data[j]? = s.data[j]?) := by
  constructor
  · intro hnone
    have h : findIndex s.data (fun user => user.id == id) = none := by
      unfold findIndex
      rw [findIndexFrom_none]
      intro u hu
      simpa using hnone u hu
    simp [saveContent, h]
  · rintro ⟨u, hu, hid⟩
    cases h : findIndex s.data (fun user => user.id == id) with
    | none =>
      unfold findIndex at h
      rw [findIndexFrom_none] at h
      have := h u hu
      simp [hid] at this
    | some k =>
      obtain ⟨j, found, hk, hget, hfound, hbefore⟩ := findIndexFrom_some _ _ _ _ h
      have hkj : k = j := by omega
      subst hkj
      have hlt : k < s.data.length := by
        rcases List.getElem?_eq_some_iff.mp hget with ⟨hlt, _⟩
        exact hlt
      refine ⟨k, found, hget, by simpa using hfound, ?_, ?_, ?_, ?_⟩
      · intro j' hj' v hv
        simpa using hbefore j' hj' v hv
      · simp [saveContent, h, List.get?_eq_getElem?, hget]
      · simp [saveContent, h, List.get?_eq_getElem?, hget, hlt]
      · intro j' hj'
        simp [saveContent, h, List.get?_eq_getElem?, hget, List.getElem?_set, Ne.symm hj']

/-- The C9 statement on the two-record store, saving new fields for Bob. -/
theorem saveContent_updates_one_record_witness :
    (∃ u ∈ (getData initialState [alice, bob]).data, u.id = 2) ∧
    ∃ (i : Nat) (found : User), (getData initialState [alice, bob]).data[i]? = some found ∧
      found.id = 2 ∧
      (∀ j, j < i → ∀ v : User, (getData initialState [alice, bob]).data[j]? = some v → v.id ≠ 2) ∧
      (saveContent (getData initialState [alice, bob]) 2 "Bobby" "bobby@x.com" "admin").data.length
        = (getData initialState [alice, bob]).data.length ∧
      (saveContent (getData initialState [alice, bob]) 2 "Bobby" "bobby@x.com" "admin").data[i]? =
        some { id := found.id, name := "Bobby", email := "bobby@x.com", role := "admin",
               selected := found.selected } ∧
      ∀ j, j ≠ i →
        (saveContent (getData initialState [alice, bob]) 2 "Bobby" "bobby@x.com" "admin").data[j]?
          = (getData initialState [alice, bob]).data[j]? :=
  ⟨⟨bob, by decide, rfl⟩,
   (saveContent_updates_one_record (getData initialState [alice, bob]) 2 "Bobby" "bobby@x.com"
      "admin").2 ⟨bob, by decide, rfl⟩⟩

/-! ## Frame lemmas on the page index -/

/-- The empty search term clears `searchData`. -/
theorem performSearch_empty (engine : Engine) (canon : Char → Char) (data : List User) :
    performSearch engine canon data "" = some [] := by
  simp [performSearch]

/-- Whenever the constructor yields a pattern, `performSearch` returns. -/
theorem performSearch_isSome (engine : Engine) (canon : Char → Char) (data : List User)
    (value : String) (pattern : Pattern) (h : RegExp engine value = some pattern) :
    ∃ users, performSearch engine canon data value = some users := by
  unfold performSearch
  by_cases hlen : value.length = 0
  · exact ⟨[], by simp [hlen]⟩
  · simp only [hlen, if_false, h]
    exact ⟨_, rfl⟩

/-- When the constructor throws on a non-empty term, so does `performSearch`.
-/
theorem performSearch_throws (engine : Engine) (canon : Char → Char) (data : List User)
    (value : String) (hne : value ≠ "") (h : RegExp engine value = none) :
    performSearch engine canon data value = none := by
  have hlen : ¬ value.length = 0 := fun hl => hne ((length_eq_zero_iff value).mp hl)
  simp only [performSearch, hlen, if_false, h]

/-- A change of the search input that goes through sets the query and leaves
the page index and the Data Store as they were. -/
theorem handleSearchChange_frame (engine : Engine) (canon : Char → Char) (s : AppState)
    (value : String) (s' : AppState) (h : handleSearchChange engine canon s value = some s') :
    s'.searchTerm = value ∧ s'.currentPage = s.currentPage ∧ s'.data = s.data := by
  unfold handleSearchChange at h
  by_cases hv : value = s.searchTerm
  · simp only [hv, if_true, Option.some.injEq] at h
    subst h
    exact ⟨hv.symm, rfl, rfl⟩
  · simp only [hv, if_false] at h
    cases hps : performSearch engine canon s.data value with
    | none => simp [hps] at h
    | some filteredData =>
      simp only [hps, Option.some.injEq] at h
      subst h
      exact ⟨rfl, rfl, rfl⟩

/-- Saving an edit leaves the page index as it was. -/
theorem saveContent_currentPage (s : AppState) (id : Nat)
    (updatedName updatedEmail updatedRole : String) :
    (saveContent s id updatedName updatedEmail updatedRole).currentPage = s.currentPage := by
  unfold saveContent
  split
  · rfl
  · split <;> rfl

/-- No event but a page change changes the page index. -/
theorem step_keeps_currentPage (engine : Engine) (canon : Char → Char) (s : AppState)
    (a : Action) (s' : AppState) (h : step engine canon s a = some s')
    (hnot : ∀ pageNumber, a ≠ Action.pageChanged pageNumber) :
    s'.currentPage = s.currentPage := by
  cases a with
  | fetched response =>
    simp only [step, Option.some.injEq] at h
    subst h; rfl
  | typed value =>
    exact (handleSearchChange_frame engine canon s value s' h).2.1
  | editClicked id =>
    simp only [step, Option.some.injEq] at h
    subst h; rfl
  | saveClicked id name email role =>
    simp only [step, Option.some.injEq] at h
    subst h
    exact saveContent_currentPage s id name email role
  | deleteClicked id =>
    simp only [step, Option.some.injEq] at h
    subst h; rfl
  | selectAllChanged checked =>
    simp only [step, Option.some.injEq] at h
    subst h; rfl
  | checkboxChanged id checked =>
    simp only [step, Option.some.injEq] at h
    subst h; rfl
  | deleteSelectedClicked =>
    simp only [step, Option.some.injEq] at h
    subst h; rfl
  | pageChanged pageNumber => exact absurd rfl (hnot pageNumber)

/-! ## Selection, deletion and the page index (C1, C2, C5, C6) -/

/-- Claim C1 (counterexample). Eleven records, page 1, no query: after the header
checkbox is checked, record 11 is in the Data Store and its id is not in
`selectedRows`. -/
theorem handleSelectAll_misses_second_page :
    11 ∈ (handleSelectAll (getData initialState (members 11)) true).data.map (fun u => u.id) ∧
    11 ∉ (handleSelectAll (getData initialState (members 11)) true).selectedRows := by
  decide

/-- Claim C1 (amended). Checking the header checkbox makes `selectedRows` the ids
of the rows handed to `UserList`, in their order, and unchecking it makes
`selectedRows` empty; either way every record of the Data Store keeps its id
and gets its `selected` flag set to the checkbox value. -/
theorem handleSelectAll_selects_displayed_rows (s : AppState) (checked : Bool) :
    (handleSelectAll s true).selectedRows = (userListData s).map (fun u => u.id) ∧
    (handleSelectAll s false).selectedRows = [] ∧
    (handleSelectAll s checked).data.map (fun u => u.id) = s.data.map (fun u => u.id) ∧
    (∀ u ∈ (handleSelectAll s checked).data, u.selected = some checked) := by
  refine ⟨rfl, rfl, ?_, ?_⟩
  · simp [handleSelectAll, Table.handleSelectAll, setEdit, Function.comp_def]
  · intro u hu
    simp only [handleSelectAll, Table.handleSelectAll, setEdit, List.mem_map] at hu
    obtain ⟨v, _, hv⟩ := hu
    rw [← hv]

/-- The amended C1 statement on the two-record store. -/
theorem handleSelectAll_selects_displayed_rows_witness :
    (handleSelectAll (getData initialState [alice, bob]) true).selectedRows =
      (userListData (getData initialState [alice, bob])).map (fun u => u.id) ∧
    ({ alice with selected := some true } : User).selected = some true :=
  ⟨(handleSelectAll_selects_displayed_rows (getData initialState [alice, bob]) true).1,
   (handleSelectAll_selects_displayed_rows (getData initialState [alice, bob]) true).2.2.2
     { alice with selected := some true } (by decide)⟩

/-- Claim C2 (counterexample). With Bob checked, the bulk delete leaves his id in
`selectedRows`. -/
theorem handleDelete_leaves_id_selected :
    2 ∈ ({ initialState with data := [alice, bob], selectedRows := [2] } : AppState).selectedRows ∧
    2 ∈ (handleDelete { initialState with data := [alice, bob], selectedRows := [2] }).selectedRows := by
  decide

/-- Claim C2 (amended). After the bulk delete the Data Store holds exactly the
records whose id was not checked, so no checked id is the id of a record;
`selectedRows` itself is left as it was. -/
theorem handleDelete_removes_selected_records (s : AppState) :
    (∀ id ∈ s.selectedRows, ∀ u ∈ (handleDelete s).data, u.id ≠ id) ∧
    (∀ u, u ∈ (handleDelete s).data ↔ u ∈ s.data ∧ u.id ∉ s.selectedRows) ∧
    (handleDelete s).selectedRows = s.selectedRows := by
  have hmem : ∀ u, u ∈ (handleDelete s).data ↔ u ∈ s.data ∧ u.id ∉ s.selectedRows := by
    intro u
    simp [handleDelete, deleteSelectedCheckBox, List.mem_filter]
  refine ⟨?_, hmem, rfl⟩
  intro id hid u hu heq
  exact ((hmem u).mp hu).2 (heq ▸ hid)

/-- The amended C2 statement on the two-record store with Bob checked. -/
theorem handleDelete_removes_selected_records_witness :
    2 ∈ ({ initialState with data := [alice, bob], selectedRows := [2] } : AppState).selectedRows ∧
    ∀ u ∈ (handleDelete { initialState with data := [alice, bob], selectedRows := [2] }).data,
      u.id ≠ 2 :=
  ⟨by decide,
   (handleDelete_removes_selected_records
      { initialState with data := [alice, bob], selectedRows := [2] }).1 2 (by decide)⟩

/-- Claim C5 (failing input). Alice and Bob are loaded, `bob` is typed and Bob is
deleted: the Data Store holds Alice alone and the search filter applied to it
yields nothing, yet the active set and the rows handed to `UserList` are
still Bob. -/
theorem deleteData_leaves_searchData_stale :
    (run fragmentOnly Char.toUpper initialState
        [Action.fetched [alice, bob], Action.typed "bob", Action.deleteClicked 2]).map
      (fun s => (s.data, activeSet s, userListData s,
        performSearch fragmentOnly Char.toUpper s.data s.searchTerm)) =
    some ([alice], [bob], [bob], some []) := by
  decide

/-- Claim C6 (counterexample). 25 records on page 3, which is in range; after the
15 checked records are deleted, 10 records remain, the page is still 3 and
the page count is 1. -/
theorem handleDelete_leaves_page_out_of_range :
    (run fragmentOnly Char.toUpper initialState fifteenChecked).map
      (fun s => ((activeSet s).length, s.currentPage)) = some (25, 3) ∧
    (run fragmentOnly Char.toUpper initialState (fifteenChecked ++ [Action.deleteSelectedClicked])).map
      (fun s => ((activeSet s).length, s.currentPage)) = some (10, 3) ∧
    ¬ (3 ≤ totalPages 10 10) := by
  refine ⟨by decide, by decide, ?_⟩
  rw [totalPages_eq]
  decide

/-- Claim C6 (amended). Neither delete changes `currentPage`, and no event but
a page change does: not a query change, a fetch, an edit, a save or a
selection. With no query, a page left beyond the page count of the remaining
records shows no row. -/
theorem deletes_keep_currentPage (engine : Engine) (canon : Char → Char) (s : AppState)
    (id : Nat) :
    (deleteData s id).currentPage = s.currentPage ∧
    (handleDelete s).currentPage = s.currentPage ∧
    (s.searchTerm = "" →
      totalPages 10 (deleteData s id).data.length < s.currentPage →
      userListData (deleteData s id) = []) ∧
    (s.searchTerm = "" →
      totalPages 10 (handleDelete s).data.length < s.currentPage →
      userListData (handleDelete s) = []) ∧
    (∀ a s', step engine canon s a = some s' →
      (∀ pageNumber, a ≠ Action.pageChanged pageNumber) → s'.currentPage = s.currentPage) ∧
    (∀ value s', handleSearchChange engine canon s value = some s' →
      s'.currentPage = s.currentPage) := by
  refine ⟨rfl, rfl, ?_, ?_, ?_, ?_⟩
  · intro hq hp
    exact userListData_eq_nil (deleteData s id) hq hp
  · intro hq hp
    exact userListData_eq_nil (handleDelete s) hq hp
  · intro a s' h hnot
    exact step_keeps_currentPage engine canon s a s' h hnot
  · intro value s' h
    exact (handleSearchChange_frame engine canon s value s' h).2.1

/-- The amended C6 statement for 21 records on page 3 and the deletion of
record 21, as a handler and as an event. -/
theorem deletes_keep_currentPage_witness :
    ({ initialState with data := members 21, currentPage := 3 } : AppState).searchTerm = "" ∧
    totalPages 10
        (deleteData { initialState with data := members 21, currentPage := 3 } 21).data.length <
      ({ initialState with data := members 21, currentPage := 3 } : AppState).currentPage ∧
    userListData (deleteData { initialState with data := members 21, currentPage := 3 } 21) = [] ∧
    step fragmentOnly Char.toUpper { initialState with data := members 21, currentPage := 3 }
        (Action.deleteClicked 21) =
      some (deleteData { initialState with data := members 21, currentPage := 3 } 21) ∧
    (deleteData { initialState with data := members 21, currentPage := 3 } 21).currentPage =
      ({ initialState with data := members 21, currentPage := 3 } : AppState).currentPage :=
  ⟨rfl, by rw [totalPages_eq]; decide,
   (deletes_keep_currentPage fragmentOnly Char.toUpper
      { initialState with data := members 21, currentPage := 3 } 21).2.2.1
     rfl (by rw [totalPages_eq]; decide),
   rfl,
   (deletes_keep_currentPage fragmentOnly Char.toUpper
      { initialState with data := members 21, currentPage := 3 } 21).2.2.2.2.1
     (Action.deleteClicked 21) _ rfl (fun _ h => Action.noConfusion h)⟩

/-! ## Query changes, rendered rows and the row editor (C7, C8, C10) -/

/-- Claim C7 (counterexample). Eleven records on page 2 with no query; typing
`user` changes the query and leaves the page at 2. -/
theorem handleSearchChange_leaves_page_two :
    (run fragmentOnly Char.toUpper initialState
        [Action.fetched (members 11), Action.pageChanged 2]).map
      (fun s => (s.searchTerm, s.currentPage)) = some ("", 2) ∧
    (run fragmentOnly Char.toUpper initialState
        [Action.fetched (members 11), Action.pageChanged 2, Action.typed "user"]).map
      (fun s => (s.searchTerm, s.currentPage)) = some ("user", 2) := by
  decide

/-- Claim C7 (amended). A change of the search input that goes through makes
the typed value the query and leaves `currentPage` and the Data Store as
they were. It goes through for every value on which the constructor yields a
pattern, for every value without syntax characters and for the empty value,
after which the active set is exactly the full Data Store; it ends in the
thrown `SyntaxError` exactly on the new, non-empty values the constructor
rejects. -/
theorem handleSearchChange_keeps_currentPage (engine : Engine) (canon : Char → Char)
    (s : AppState) :
    (∀ value s', handleSearchChange engine canon s value = some s' →
      s'.searchTerm = value ∧ s'.currentPage = s.currentPage ∧ s'.data = s.data) ∧
    (∀ value pattern, RegExp engine value = some pattern →
      ∃ s', handleSearchChange engine canon s value = some s') ∧
    (∀ value, (∀ c ∈ value.toList, c ∉ syntaxCharacters) →
      ∃ s', handleSearchChange engine canon s value = some s') ∧
    (∃ s', handleSearchChange engine canon s "" = some s' ∧ activeSet s' = s.data ∧
      s'.currentPage = s.currentPage) ∧
    (∀ value, handleSearchChange engine canon s value = none ↔
      value ≠ s.searchTerm ∧ value ≠ "" ∧ RegExp engine value = none) := by
  refine ⟨?_, ?_, ?_, ?_, ?_⟩
  · intro value s' h
    exact handleSearchChange_frame engine canon s value s' h
  · intro value pattern hpat
    unfold handleSearchChange
    by_cases hv : value = s.searchTerm
    · exact ⟨s, by simp [hv]⟩
    · obtain ⟨users, hu⟩ := performSearch_isSome engine canon s.data value pattern hpat
      simp [hv, hu]
  · intro value hlit
    unfold handleSearchChange
    by_cases hv : value = s.searchTerm
    · exact ⟨s, by simp [hv]⟩
    · by_cases hne : value = ""
      · subst hne
        simp [hv, performSearch_empty]
      · simp [hv, performSearch_literal_eq engine canon s.data value hne hlit]
  · unfold handleSearchChange
    by_cases hv : "" = s.searchTerm
    · refine ⟨s, by simp [hv], ?_, rfl⟩
      simp [activeSet, ← hv]
    · refine ⟨{ s with searchTerm := "", searchData := [] }, ?_, ?_, rfl⟩
      · simp [hv, performSearch_empty]
      · simp [activeSet]
  · intro value
    unfold handleSearchChange
    by_cases hv : value = s.searchTerm
    · simp [hv]
    · by_cases hne : value = ""
      · subst hne
        simp [hv, performSearch_empty]
      · cases hre : RegExp engine value with
        | none =>
          simp [hv, hne, performSearch_throws engine canon s.data value hne hre]
        | some pattern =>
          obtain ⟨users, hu⟩ := performSearch_isSome engine canon s.data value pattern hre
          simp [hv, hu]

/-- The amended C7 statement for eleven records on page 2 and the typed value
`user`. -/
theorem handleSearchChange_keeps_currentPage_witness :
    handleSearchChange fragmentOnly Char.toUpper
        (paginate (getData initialState (members 11)) 2) "user" =
      some { paginate (getData initialState (members 11)) 2 with
              searchTerm := "user", searchData := members 11 } ∧
    ({ paginate (getData initialState (members 11)) 2 with
        searchTerm := "user", searchData := members 11 } : AppState).currentPage =
      (paginate (getData initialState (members 11)) 2).currentPage :=
  ⟨by decide,
   ((handleSearchChange_keeps_currentPage fragmentOnly Char.toUpper
      (paginate (getData initialState (members 11)) 2)).1 "user" _ (by decide)).2.1⟩

/-- Claim C8 (failing input). Eleven records all matching the query `user`, page
1: `UserList` is handed all eleven rows, while the visible slice of the
active set has ten. -/
theorem userListData_ignores_page_when_searching :
    (run fragmentOnly Char.toUpper initialState [Action.fetched (members 11), Action.typed "user"]).map
      (fun s => ((userListData s).length, (visibleSlice (activeSet s) s.currentPage 10).length,
        decide (userListData s = visibleSlice (activeSet s) s.currentPage 10))) =
    some (11, 10, false) := by
  decide

/-- Claim C10. While a row is being edited, a click on a row checkbox or on the
header checkbox clears `edit` and leaves the id, name, email and role of
every record of the Data Store as they were. -/
theorem selection_discards_edit (s : AppState) (target : Nat) (_hEditing : s.edit = some target)
    (id : Nat) (checked : Bool) :
    (handleCheckboxChange s id checked).edit = none ∧
    (handleSelectAll s checked).edit = none ∧
    (handleCheckboxChange s id checked).data.map (fun u => (u.id, u.name, u.email, u.role)) =
      s.data.map (fun u => (u.id, u.name, u.email, u.role)) ∧
    (handleSelectAll s checked).data.map (fun u => (u.id, u.name, u.email, u.role)) =
      s.data.map (fun u => (u.id, u.name, u.email, u.role)) := by
  refine ⟨rfl, rfl, ?_, ?_⟩
  · simp only [handleCheckboxChange, Table.handleCheckboxChange, setEdit, List.map_map]
    apply List.map_congr_left
    intro u _
    by_cases hu : u.id = id <;> simp [hu]
  · simp [handleSelectAll, Table.handleSelectAll, setEdit, Function.comp_def]

/-- The C10 statement on the scenario of the specification: row 1 is being
edited and the checkbox of row 2 is checked. -/
theorem selection_discards_edit_witness :
    ({ initialState with data := [alice, bob], edit := some 1 } : AppState).edit = some 1 ∧
    (handleCheckboxChange { initialState with data := [alice, bob], edit := some 1 } 2 true).edit
      = none ∧
    (handleCheckboxChange { initialState with data := [alice, bob], edit := some 1 } 2
        true).data.map (fun u => (u.id, u.name, u.email, u.role)) =
      [(1, "Alice", "a@x.com", "admin"), (2, "Bob", "b@x.com", "member")] :=
  ⟨rfl,
   (selection_discards_edit { initialState with data := [alice, bob], edit := some 1 } 1 rfl
      2 true).1,
   (selection_discards_edit { initialState with data := [alice, bob], edit := some 1 } 1 rfl
      2 true).2.2.1⟩

end AdminUI
